import Mathlib

/-!
Verification development for the daily time-series synchronization engine.

Shallow embedding conventions:
* Calendar dates are absolute day numbers (`Nat`), with day 0 a Monday, so
  `d % 7 < 5` means Monday..Friday.  The source stores dates as `YYYYMMDD`
  strings and compares them lexicographically, which agrees with the numeric
  order on well-formed dates; `+ 1` models `timedelta(days=1)`.
* A pandas `DataFrame` of daily rows is a `List DailyRecord`; a Python `None`
  data frame is `Option.none`; a NaN in the volume/amount column is
  `Option.none` in that field.
* A file on disk is `Option (List DailyRecord)` (`none` = file absent).
* External library calls (提供商 SDK downloads, `pd.to_datetime` parsing, the
  exchange-calendar backend) are modelled as explicit parameters carrying
  their outcome, with `Except` for calls that may raise.
-/

/-- One row of a per-instrument daily series (the canonical column set).
`name = none` models the absence of the 股票名称 column for that row. -/
structure DailyRecord where
  date : Nat
  code : String
  name : Option String
  openP : Rat
  closeP : Rat
  highP : Rat
  lowP : Rat
  volume : Option Rat
  amount : Option Rat
  amplitude : Rat
  pctChange : Rat
  change : Rat
  turnover : Rat
  deriving DecidableEq, Repr, Inhabited

/-- The validity predicate of `filter_suspended_trading_data`
(src/utils/data_saver.py lines 39-44): keep a row iff volume and amount are
both present (notna) and strictly positive. -/
def isValidTradingRecord (r : DailyRecord) : Bool :=
  match r.volume, r.amount with
  | some v, some a => decide (0 < v) && decide (0 < a)
  | _, _ => false

/-- src/utils/data_saver.py `filter_suspended_trading_data`: returns the
filtered frame and the number of removed rows.  (The `df.empty` early return
and the missing-column fallback coincide with the general formula in the
typed model, where both columns always exist.) -/
def filter_suspended_trading_data (df : List DailyRecord) :
    List DailyRecord × Nat :=
  let df_filtered := df.filter isValidTradingRecord
  (df_filtered, df.length - df_filtered.length)

/-- The watermark map of `MetadataManager` (src/utils/metadata_manager.py):
instrument code → last-synced date.  The in-memory cache is authoritative
(persistence failures are swallowed), so the model is just the map. -/
abbrev Metadata := List (String × Nat)

/-- `MetadataManager.get_last_date`: dictionary lookup. -/
def Metadata.get_last_date (m : Metadata) (stock_code : String) : Option Nat :=
  (List.find? (fun p => p.1 = stock_code) m).map (fun p => p.2)

/-- `MetadataManager.update_last_date`: dictionary assignment
(`metadata[stock_code] = last_date`).  The new binding shadows any older
one for lookups. -/
def Metadata.update_last_date (m : Metadata) (stock_code : String)
    (last_date : Nat) : Metadata :=
  (stock_code, last_date) :: m

/-- Worker for `drop_duplicates`: `seen` holds the dates already kept. -/
def dedupGo (seen : List Nat) : List DailyRecord → List DailyRecord
  | [] => []
  | r :: rest =>
      if r.date ∈ seen then dedupGo seen rest
      else r :: dedupGo (r.date :: seen) rest

/-- `drop_duplicates(subset=[date_col])` with pandas' default `keep='first'`:
keep the first row for each date, preserving order. -/
def dedupByDateKeepFirst (l : List DailyRecord) : List DailyRecord :=
  dedupGo [] l

/-- `sort_values(by=date_col)` ascending.  The source's sort is stable, but
every sort input in this development has pairwise-distinct dates (the merge
sorts a deduplicated frame, the resolver sorts a set of days), so insertion
sort produces the same list. -/
def sortByDate (l : List DailyRecord) : List DailyRecord :=
  List.insertionSort (fun a b => a.date ≤ b.date) l

/-- Maximum date of a batch (`df[date_col].max()`); 0 on an empty batch
(the source only evaluates it on non-empty batches). -/
def maxBatchDate : List DailyRecord → Nat
  | [] => 0
  | r :: rest => rest.foldl (fun m s => max m s.date) r.date

/-- Result of `merge_and_save_data`: the file content after the call, the
metadata map after the call, and the returned triple. -/
structure MergeOutcome where
  file : Option (List DailyRecord)
  meta : Option Metadata
  is_update : Bool
  new_count : Nat
  removed_count : Nat
  deriving DecidableEq, Repr

/-- src/utils/data_saver.py `merge_and_save_data`.
`file` is the current content of `output_file` (`none` = absent);
`meta` models the optional `metadata_manager`; `fetch_end_date` is the
optional requested end date.  In the replace branch the source computes
`is_update = os.path.exists(output_file) and need_full_refresh` after the
file has just been written, so the existence test is always true there. -/
def merge_and_save_data (df_new : List DailyRecord)
    (file : Option (List DailyRecord)) (stock_code : String)
    (need_full_refresh : Bool) (meta : Option Metadata)
    (fetch_end_date : Option Nat) : MergeOutcome :=
  let fn := filter_suspended_trading_data df_new
  let df_new_filtered := fn.1
  let removed_count_new := fn.2
  if df_new_filtered.isEmpty then
    { file := file
      meta :=
        match meta, fetch_end_date with
        | some m, some e => some (m.update_last_date stock_code e)
        | m, _ => m
      is_update := false
      new_count := 0
      removed_count := removed_count_new }
  else
    let metaAfter : Option Metadata :=
      match meta, fetch_end_date with
      | some m, some e => some (m.update_last_date stock_code e)
      | some m, none =>
          some (m.update_last_date stock_code (maxBatchDate df_new_filtered))
      | none, _ => none
    match file, need_full_refresh with
    | some df_existing, false =>
        let fe := filter_suspended_trading_data df_existing
        let df_combined := fe.1 ++ df_new_filtered
        let df_sorted := sortByDate (dedupByDateKeepFirst df_combined)
        { file := some df_sorted
          meta := metaAfter
          is_update := true
          new_count := df_new_filtered.length
          removed_count := removed_count_new + fe.2 }
    | _, _ =>
        { file := some df_new_filtered
          meta := metaAfter
          is_update := need_full_refresh
          new_count := df_new_filtered.length
          removed_count := removed_count_new }

/-- `pd.date_range(start, end, freq=..)` with daily frequency: the inclusive
day range as a list, empty when `end_d < start_d`. -/
def dateRange (start_d end_d : Nat) : List Nat :=
  (List.range (end_d + 1 - start_d)).map (fun i => start_d + i)

/-- The exchange-calendar backend of src/utils/trading_day_checker.py.
`unavailable` models a failed `import exchange_calendars` (or a failed
`get_calendar`); `available is_session` carries the `XSHG_CALENDAR.is_session`
query, which may itself raise. -/
inductive CalendarBackend where
  | unavailable
  | available (is_session : Nat → Except String Bool)

/-- `any(CALENDAR.is_session(d) for d in date_range)` inside the `try`:
queries are evaluated left to right, the first `True` short-circuits, and an
exception raised by a query propagates when it is reached. -/
def anySessionExcept (is_session : Nat → Except String Bool) :
    List Nat → Except String Bool
  | [] => .ok false
  | d :: rest =>
      match is_session d with
      | .error e => .error e
      | .ok true => .ok true
      | .ok false => anySessionExcept is_session rest

/-- src/utils/trading_day_checker.py `has_trading_day`.
`parsed` is the outcome of the `pd.to_datetime` calls on the two date
strings (`.error` = a parse failure caught by the outer `except`). -/
def has_trading_day (backend : CalendarBackend)
    (parsed : Except String (Nat × Nat)) : Bool :=
  match parsed with
  | .error _ => true
  | .ok (start_d, end_d) =>
      let date_range := dateRange start_d end_d
      match backend with
      | .available is_session =>
          match anySessionExcept is_session date_range with
          | .ok b => b
          | .error _ => date_range.any (fun d => decide (d % 7 < 5))
      | .unavailable => date_range.any (fun d => decide (d % 7 < 5))

/-- The five-tuple returned by `get_missing_date_range`
(src/utils/missing_date_range_checker.py).  `missing_dates` keeps the day
numbers; the source's `strftime` formatting is presentation only. -/
structure ResolveResult where
  need_update : Bool
  fetch_start : Option Nat
  fetch_end : Option Nat
  need_full_refresh : Bool
  missing_dates : Option (List Nat)
  deriving DecidableEq, Repr

/-- Minimum date of a series (`df[date_col].min()`); 0 on an empty series
(the source only evaluates it on non-empty frames). -/
def minBatchDate : List DailyRecord → Nat
  | [] => 0
  | r :: rest => rest.foldl (fun m s => min m s.date) r.date

/-- Metadata fast path of `get_missing_date_range` (lines 71-89): in tail
mode with a watermark entry present, resolve from the watermark alone;
`none` means the entry is absent and the caller falls through. -/
def resolveTailFastMeta (cal : Nat → Nat → Bool) (stock_code : String)
    (end_date : Nat) (m : Metadata) : Option ResolveResult :=
  match m.get_last_date stock_code with
  | none => none
  | some last_date =>
      if end_date ≤ last_date then some ⟨false, none, none, false, none⟩
      else
        let next_day := last_date + 1
        if cal next_day end_date then
          some ⟨true, some next_day, some end_date, false, none⟩
        else
          some ⟨false, none, none, false, none⟩

/-- File fast path of `get_missing_date_range` (lines 92-123): in tail mode
read only the final row's date.  (The `except`-to-full-path fallback guards
pandas read errors, which the typed model cannot exhibit.) -/
def resolveTailFastFile (cal : Nat → Nat → Bool)
    (existing_df : List DailyRecord) (start_date end_date : Nat) :
    ResolveResult :=
  match existing_df.getLast? with
  | none => ⟨true, some start_date, some end_date, false, none⟩
  | some lastRow =>
      let existing_end := lastRow.date
      if end_date ≤ existing_end then ⟨false, none, none, false, none⟩
      else
        let next_day := existing_end + 1
        if cal next_day end_date then
          ⟨true, some next_day, some end_date, false, none⟩
        else
          ⟨false, none, none, false, none⟩

/-- Gap classification and mode dispatch of the full analysis path (lines
179-233): `afterMiddle` is the middle-gap block (which returns for the three
known modes and falls through otherwise), followed by the generic tail /
head / head-and-tail handling. -/
def resolveBranches (update_mode : String)
    (start_date end_date existing_start existing_end : Nat)
    (has_head has_tail has_middle : Bool) (missing_formatted : List Nat) :
    ResolveResult :=
  let afterMiddle : Option ResolveResult :=
    if has_middle then
      if update_mode = "full" then
        some ⟨true, some start_date, some end_date, true, some missing_formatted⟩
      else if update_mode = "tail" then
        if has_tail then
          some ⟨true, some (existing_end + 1), some end_date, false,
            some missing_formatted⟩
        else some ⟨false, none, none, false, none⟩
      else if update_mode = "head_tail" then
        if has_head && has_tail then
          some ⟨true, some start_date, some end_date, true,
            some missing_formatted⟩
        else if has_tail then
          some ⟨true, some (existing_end + 1), some end_date, false,
            some missing_formatted⟩
        else if has_head then
          some ⟨true, some start_date, some (existing_start - 1), false,
            some missing_formatted⟩
        else some ⟨false, none, none, false, none⟩
      else none
    else none
  match afterMiddle with
  | some r => r
  | none =>
      if update_mode = "tail" then
        if has_tail then
          ⟨true, some (existing_end + 1), some end_date, false,
            some missing_formatted⟩
        else ⟨false, none, none, false, none⟩
      else if has_tail && !has_head then
        ⟨true, some (existing_end + 1), some end_date, false,
          some missing_formatted⟩
      else if has_head && !has_tail then
        ⟨true, some start_date, some (existing_start - 1), false,
          some missing_formatted⟩
      else if has_head && has_tail then
        ⟨true, some start_date, some end_date, true, some missing_formatted⟩
      else ⟨false, none, none, false, none⟩

/-- Full analysis path of `get_missing_date_range` (lines 129-233): load the
whole series, diff against the requested window, filter to trading days and
classify the gaps as head / middle / tail. -/
def resolveFullPath (cal : Nat → Nat → Bool) (existing_df : List DailyRecord)
    (start_date end_date : Nat) (update_mode : String) : ResolveResult :=
  if existing_df.isEmpty then ⟨true, some start_date, some end_date, false, none⟩
  else
    let existing_dates := existing_df.map (fun r => r.date)
    let existing_start := minBatchDate existing_df
    let existing_end := maxBatchDate existing_df
    let all_dates := dateRange start_date end_date
    let missing_dates := all_dates.filter (fun d => !(existing_dates.contains d))
    if missing_dates.isEmpty then ⟨false, none, none, false, none⟩
    else
      let missing_trading_days := missing_dates.filter (fun d => cal d d)
      if missing_trading_days.isEmpty then ⟨false, none, none, false, none⟩
      else
        let missing_sorted := List.insertionSort (fun a b => a ≤ b) missing_trading_days
        let has_head := decide (missing_sorted.headD 0 < existing_start)
        let has_tail := decide (existing_end < missing_sorted.getLastD 0)
        let middle := missing_sorted.filter
          (fun d => decide (existing_start < d) && decide (d < existing_end))
        resolveBranches update_mode start_date end_date existing_start
          existing_end has_head has_tail (!middle.isEmpty) missing_sorted

/-- src/utils/missing_date_range_checker.py `get_missing_date_range`.
`cal s e` is the outcome of the `has_trading_day(s, e)` calls; `existing` is
the persisted series file (`none` = absent); `stock_code` is the code the
source recovers from the file name. -/
def get_missing_date_range (cal : Nat → Nat → Bool)
    (existing : Option (List DailyRecord)) (stock_code : String)
    (start_date end_date : Nat) (update_mode : String)
    (metadata_manager : Option Metadata) : ResolveResult :=
  match existing with
  | none => ⟨true, some start_date, some end_date, false, none⟩
  | some existing_df =>
      let fastMeta : Option ResolveResult :=
        if update_mode = "tail" then
          match metadata_manager with
          | some m => resolveTailFastMeta cal stock_code end_date m
          | none => none
        else none
      match fastMeta with
      | some r => r
      | none =>
          if update_mode = "tail" then
            resolveTailFastFile cal existing_df start_date end_date
          else
            resolveFullPath cal existing_df start_date end_date update_mode

/-- What one provider does when its fetch function is called inside
`MultiSourceFetcher.fetch`: return a data frame (possibly `None` or empty)
or raise. -/
inductive ProviderBehavior where
  | ret (df : Option (List DailyRecord))
  | raiseErr (msg : String)
  deriving DecidableEq, Repr

/-- The `FetchResult` named tuple of src/fetchers/multi_source_fetcher.py. -/
structure FetchResult where
  data : Option (List DailyRecord)
  source : Option String
  deriving DecidableEq, Repr

/-- Observable outcome of one `MultiSourceFetcher.fetch` call: the returned
`FetchResult`, the usage counters afterwards, which providers were actually
invoked, and the accumulated `failed_sources` diagnostics. -/
structure MsFetchState where
  result : FetchResult
  stats : List (String × Nat)
  invoked : List String
  failed_sources : List (String × String)
  deriving DecidableEq, Repr

/-- `self.source_stats[source_name] += 1` on the counter map. -/
def bumpStat (stats : List (String × Nat)) (source_name : String) :
    List (String × Nat) :=
  stats.map (fun p => if p.1 = source_name then (p.1, p.2 + 1) else p)

/-- Read a usage counter (0 when the key is absent). -/
def statOf (stats : List (String × Nat)) (source_name : String) : Nat :=
  ((List.find? (fun p => p.1 = source_name) stats).map (fun p => p.2)).getD 0

/-- `df.insert(1, '股票名称', stock_name)`: in this repository no provider
emits the 股票名称 column, so the guard `'股票名称' not in df.columns` always
fires and every row receives the name. -/
def withStockName (stock_name : String) (df : List DailyRecord) :
    List DailyRecord :=
  df.map (fun r => { r with name := some stock_name })

/-- The provider loop of `MultiSourceFetcher.fetch` (lines 150-192): try each
provider in order; a non-empty frame is returned as a success and counted, a
`None`/empty frame short-circuits as `no_data`, an exception is recorded and
the next provider is tried; when the list is exhausted the result is
`(None, None)` if any provider raised and `(None, "no_data")` otherwise. -/
def msFetchGo (stock_name : String) :
    List (String × ProviderBehavior) → List (String × Nat) → List String →
    List (String × String) → MsFetchState
  | [], stats, invoked, failed =>
      if failed.isEmpty then
        { result := ⟨none, some "no_data"⟩, stats := stats, invoked := invoked,
          failed_sources := failed }
      else
        { result := ⟨none, none⟩, stats := stats, invoked := invoked,
          failed_sources := failed }
  | (source_name, b) :: rest, stats, invoked, failed =>
      match b with
      | .raiseErr msg =>
          msFetchGo stock_name rest stats (invoked ++ [source_name])
            (failed ++ [(source_name, msg)])
      | .ret df =>
          match df with
          | some d =>
              if d.isEmpty then
                { result := ⟨none, some "no_data"⟩, stats := stats,
                  invoked := invoked ++ [source_name], failed_sources := failed }
              else
                { result := ⟨some (withStockName stock_name d), some source_name⟩,
                  stats := bumpStat stats source_name,
                  invoked := invoked ++ [source_name], failed_sources := failed }
          | none =>
              { result := ⟨none, some "no_data"⟩, stats := stats,
                invoked := invoked ++ [source_name], failed_sources := failed }

/-- `MultiSourceFetcher.fetch` run over an already-built try-order. -/
def msFetch (stock_name : String) (stats : List (String × Nat))
    (providers : List (String × ProviderBehavior)) : MsFetchState :=
  msFetchGo stock_name providers stats [] []

/-- The `all_sources` dict of `MultiSourceFetcher.fetch` in insertion
order. -/
def allSourceNames : List String := ["baostock", "akshare", "yfinance"]

/-- `__init__`'s fallback to `'baostock'` for an unknown preferred source. -/
def validatePreferred (preferred_source : String) : String :=
  if allSourceNames.contains preferred_source then preferred_source
  else "baostock"

/-- The try-order built in `fetch` (lines 139-148): the preferred source
first, then the remaining sources in enumeration order. -/
def buildSourceOrder (preferred_source : String) : List String :=
  (if allSourceNames.contains preferred_source then [preferred_source] else [])
    ++ allSourceNames.filter (fun n => n ≠ preferred_source)

/-- `MultiSourceFetcher.fetch` end to end: validate the preferred source,
build the try-order, and run the provider loop.  `behavior` gives each
provider's live answer for this call. -/
def multiSourceFetch (preferred_source stock_name : String)
    (stats : List (String × Nat)) (behavior : String → ProviderBehavior) :
    MsFetchState :=
  msFetch stock_name stats
    ((buildSourceOrder (validatePreferred preferred_source)).map
      (fun n => (n, behavior n)))

/-- Banker's rounding (round half to even), the rounding used by pandas'
`round`. -/
def roundHalfEven (q : Rat) : Int :=
  let f := ⌊q⌋
  let r := q - f
  if r < 1 / 2 then f
  else if 1 / 2 < r then f + 1
  else if f % 2 = 0 then f else f + 1

/-- `Series.round(2)`. -/
def round2 (q : Rat) : Rat := (roundHalfEven (q * 100) : Rat) / 100

/-- `str.zfill(6)` on an unsigned code string. -/
def zfill6 (s : String) : String :=
  String.mk (List.replicate (6 - s.length) '0') ++ s

/-- A raw row of a `yf.download` frame after `reset_index`. -/
structure YfRow where
  date : Nat
  openP : Rat
  highP : Rat
  lowP : Rat
  closeP : Rat
  volume : Rat
  deriving DecidableEq, Repr

/-- Normalization in `YFinanceFetcher.fetch` (lines 100-147): derive
pct-change / change / amplitude from the previous close (`shift(1)`, with
`fillna(0)` on the first row), rename to the canonical columns, zero-fill
成交额 and 换手率, round prices and derived columns to 2 decimals.
A zero previous close follows Rat's division-by-zero convention; pandas
would produce an infinity there, a case no claim touches. -/
def yfRowsToRecords (stock_code : String) :
    Option Rat → List YfRow → List DailyRecord
  | _, [] => []
  | prevClose, row :: rest =>
      let pct := match prevClose with
        | none => 0
        | some pc => (row.closeP - pc) / pc * 100
      let chg := match prevClose with
        | none => 0
        | some pc => row.closeP - pc
      let amp := match prevClose with
        | none => 0
        | some pc => (row.highP - row.lowP) / pc * 100
      { date := row.date, code := zfill6 stock_code, name := none,
        openP := round2 row.openP, closeP := round2 row.closeP,
        highP := round2 row.highP, lowP := round2 row.lowP,
        volume := some row.volume, amount := some 0,
        amplitude := round2 amp, pctChange := round2 pct,
        change := round2 chg, turnover := 0 }
        :: yfRowsToRecords stock_code (some row.closeP) rest

/-- src/fetchers/yfinance_fetcher.py `YFinanceFetcher.fetch`: the whole body
sits in a `try` whose `except Exception` returns `None` (lines 151-152), so
a failed download — `download = .error _` — yields `None`; an empty frame
also yields `None`; otherwise the normalized frame. -/
def yfinanceFetch (stock_code : String)
    (download : Except String (List YfRow)) : Option (List DailyRecord) :=
  match download with
  | .error _ => none
  | .ok rows =>
      if rows.isEmpty then none
      else some (yfRowsToRecords stock_code none rows)

/-- A raw row retrieved from `bs.query_history_k_data_plus` after
`pd.to_numeric`. -/
structure BsRow where
  date : Nat
  openP : Rat
  highP : Rat
  lowP : Rat
  closeP : Rat
  volume : Rat
  amount : Rat
  pctChg : Rat
  turn : Rat
  deriving DecidableEq, Repr

/-- Normalization in `BaostockFetcher.fetch` (lines 140-179): derive change
and amplitude from the previous close (`shift(1)` with `fillna(0)`), rename
to the canonical columns, replace the code column by the zero-padded input
code, and round the eight price-like columns to 2 decimals (volume and
amount stay unrounded). -/
def bsRowsToRecords (stock_code : String) :
    Option Rat → List BsRow → List DailyRecord
  | _, [] => []
  | prevClose, row :: rest =>
      let chg := match prevClose with
        | none => 0
        | some pc => row.closeP - pc
      let amp := match prevClose with
        | none => 0
        | some pc => (row.highP - row.lowP) / pc * 100
      { date := row.date, code := zfill6 stock_code, name := none,
        openP := round2 row.openP, closeP := round2 row.closeP,
        highP := round2 row.highP, lowP := round2 row.lowP,
        volume := some row.volume, amount := some row.amount,
        amplitude := round2 amp, pctChange := round2 row.pctChg,
        change := round2 chg, turnover := round2 row.turn }
        :: bsRowsToRecords stock_code (some row.closeP) rest

/-- src/fetchers/baostock_fetcher.py `BaostockFetcher.fetch` (lines 87-181):
when not logged in and the login attempt fails, return `None` (lines
100-103); when the result set yields no rows (including a non-zero
`error_code`), return `None`; otherwise the normalized frame.  A raising
`bs.query_history_k_data_plus` is not caught here and propagates to the
caller, which the fetcher-level model represents as `ProviderBehavior.raiseErr`. -/
def baostockFetch (is_logged_in login_ok : Bool) (stock_code : String)
    (rows : List BsRow) : Option (List DailyRecord) :=
  if !is_logged_in && !login_ok then none
  else if rows.isEmpty then none
  else some (bsRowsToRecords stock_code none rows)

/-- Per-instrument state the orchestrator threads through one run: the
persisted series file and the watermark map. -/
structure StockState where
  file : Option (List DailyRecord)
  meta : Metadata
  deriving DecidableEq, Repr

/-- One iteration of the main loop of src/fetch_historical_data.py (lines
169-238) for one instrument: resolve the missing range, skip when no update
is needed or the window has no trading day, fetch through the failover
chain, advance the watermark on an authoritative empty answer, and merge on
success (the merge updates the watermark to `fetch_end`).  A `Failure`
outcome leaves both the file and the watermark untouched. -/
def runStockStep (cal : Nat → Nat → Bool)
    (providers : List (String × ProviderBehavior))
    (stats : List (String × Nat)) (stock_code stock_name : String)
    (start_date end_date : Nat) (update_mode : String) (st : StockState) :
    StockState :=
  let R := get_missing_date_range cal st.file stock_code start_date end_date
    update_mode (some st.meta)
  if R.need_update = false then st
  else
    let fetch_start := R.fetch_start.getD 0
    let fetch_end := R.fetch_end.getD 0
    if cal fetch_start fetch_end = false then st
    else
      let fr := msFetch stock_name stats providers
      match fr.result.data with
      | none =>
          if fr.result.source = some "no_data" then
            { st with meta := st.meta.update_last_date stock_code fetch_end }
          else st
      | some df_new =>
          let out := merge_and_save_data df_new st.file stock_code
            R.need_full_refresh (some st.meta) (some fetch_end)
          { file := out.file, meta := out.meta.getD st.meta }


/-- A canonical-schema row with the given date, name, volume and amount,
used for concrete witnesses. -/
def mkRec (d : Nat) (nm : String) (v a : Option Rat) : DailyRecord :=
  { date := d, code := "000001", name := some nm, openP := 1, closeP := 1,
    highP := 1, lowP := 1, volume := v, amount := a, amplitude := 0,
    pctChange := 0, change := 0, turnover := 0 }

def sampleValidRec : DailyRecord := mkRec 3 "平安银行" (some 5) (some 7)

def sampleInvalidRec : DailyRecord := mkRec 4 "平安银行" (some 0) none

def sampleBatch3 : List DailyRecord :=
  [mkRec 1 "X" (some 1) (some 1), mkRec 2 "X" (some 1) (some 1),
   mkRec 3 "X" (some 1) (some 1)]

instance : IsTotal DailyRecord (fun a b => a.date ≤ b.date) :=
  ⟨fun a b => Nat.le_total a.date b.date⟩

instance : IsTrans DailyRecord (fun a b => a.date ≤ b.date) :=
  ⟨fun _ _ _ hab hbc => Nat.le_trans hab hbc⟩

def mergeOldRec : DailyRecord := mkRec 5 "OLD" (some 1) (some 1)

def mergeNewRec : DailyRecord := mkRec 5 "NEW" (some 2) (some 2)

/-- Modelled from the spec: the "formatted missing-date list" of §4.2 — the
trading days of the requested window that are absent from the persisted
series (kept as day numbers; formatting is presentation only). -/
def spec_missing_trading_dates (cal : Nat → Nat → Bool)
    (existing_df : List DailyRecord) (start_date end_date : Nat) : List Nat :=
  ((dateRange start_date end_date).filter
      (fun d => !((existing_df.map (fun r => r.date)).contains d))).filter
    (fun d => cal d d)

def wmSeries0 : List DailyRecord :=
  [mkRec 8 "A" (some 1) (some 1), mkRec 9 "A" (some 1) (some 1)]

def wmProviders1 : List (String × ProviderBehavior) :=
  [("P", .ret (some [mkRec 10 "A" (some 1) (some 1)]))]

def wmProviders2 : List (String × ProviderBehavior) :=
  [("P", .ret (some [mkRec 1 "A" (some 1) (some 1)]))]

def wmState0 : StockState := { file := some wmSeries0, meta := [] }

lemma isValidTradingRecord_iff (r : DailyRecord) :
    isValidTradingRecord r = true ↔
      ∃ v a, r.volume = some v ∧ r.amount = some a ∧ 0 < v ∧ 0 < a := by
  unfold isValidTradingRecord
  rcases hv : r.volume with _ | v <;> rcases ha : r.amount with _ | a <;>
    simp [hv, ha]

/-- Claim C7: `filter_invalid` keeps a record iff its volume and amount are
both present and strictly positive — every survivor satisfies both, every
valid input record survives — and the reported removed count equals input
size minus output size. -/
theorem C7_filter_invalid_exact (df : List DailyRecord) :
    (∀ r : DailyRecord,
        r ∈ (filter_suspended_trading_data df).1 ↔
          r ∈ df ∧ ∃ v a, r.volume = some v ∧ r.amount = some a ∧
            0 < v ∧ 0 < a) ∧
    (filter_suspended_trading_data df).2
      = df.length - (filter_suspended_trading_data df).1.length := by
  refine ⟨fun r => ?_, rfl⟩
  rw [← isValidTradingRecord_iff]
  simp [filter_suspended_trading_data, List.mem_filter]

theorem C7_filter_invalid_exact_witness :
    sampleValidRec ∈
      (filter_suspended_trading_data [sampleValidRec, sampleInvalidRec]).1 ∧
    (filter_suspended_trading_data [sampleValidRec, sampleInvalidRec]).2
      = [sampleValidRec, sampleInvalidRec].length -
        (filter_suspended_trading_data [sampleValidRec, sampleInvalidRec]).1.length := by
  have h := C7_filter_invalid_exact [sampleValidRec, sampleInvalidRec]
  exact ⟨(h.1 sampleValidRec).mpr
    ⟨by decide, 5, 7, by decide, by decide, by decide, by decide⟩, h.2⟩

lemma get_last_date_update (m : Metadata) (c : String) (d : Nat) :
    (m.update_last_date c d).get_last_date c = some d := by
  simp [Metadata.get_last_date, Metadata.update_last_date, List.find?_cons_of_pos]

/-- Claim C6: a merge whose new batch is entirely filtered out (with a
watermark store and a requested end supplied) leaves the persisted file
untouched yet sets the watermark to the requested end date. -/
theorem C6_empty_batch_watermark (df_new : List DailyRecord)
    (file : Option (List DailyRecord)) (stock_code : String)
    (need_full_refresh : Bool) (m : Metadata) (requested_end : Nat)
    (h : (filter_suspended_trading_data df_new).1 = []) :
    (merge_and_save_data df_new file stock_code need_full_refresh
        (some m) (some requested_end)).file = file ∧
    ((merge_and_save_data df_new file stock_code need_full_refresh
        (some m) (some requested_end)).meta.getD []).get_last_date stock_code
      = some requested_end := by
  unfold merge_and_save_data
  simp [h, get_last_date_update]

theorem C6_empty_batch_watermark_witness :
    (merge_and_save_data [sampleInvalidRec] (some [sampleValidRec]) "000001"
        false (some []) (some 700)).file = some [sampleValidRec] ∧
    ((merge_and_save_data [sampleInvalidRec] (some [sampleValidRec]) "000001"
        false (some []) (some 700)).meta.getD []).get_last_date "000001"
      = some 700 :=
  C6_empty_batch_watermark [sampleInvalidRec] (some [sampleValidRec]) "000001"
    false [] 700 (by decide)

/-- Claim C4: in tail mode with a watermark entry present, the resolver
returns no-update when the watermark already reaches the requested end;
otherwise it asks the calendar about `[last_date+1, end]` and returns
no-update on `false`, or a `[last_date+1, end]` fetch with
`full_refresh = false` on `true`. -/
theorem C4_tail_watermark_fastpath (cal : Nat → Nat → Bool)
    (existing_df : List DailyRecord) (stock_code : String)
    (start_date end_date : Nat) (m : Metadata) (last_date : Nat)
    (h : m.get_last_date stock_code = some last_date) :
    (end_date ≤ last_date →
      get_missing_date_range cal (some existing_df) stock_code start_date
          end_date "tail" (some m)
        = ⟨false, none, none, false, none⟩) ∧
    (last_date < end_date → cal (last_date + 1) end_date = false →
      get_missing_date_range cal (some existing_df) stock_code start_date
          end_date "tail" (some m)
        = ⟨false, none, none, false, none⟩) ∧
    (last_date < end_date → cal (last_date + 1) end_date = true →
      get_missing_date_range cal (some existing_df) stock_code start_date
          end_date "tail" (some m)
        = ⟨true, some (last_date + 1), some end_date, false, none⟩) := by
  refine ⟨fun h1 => ?_, fun h1 h2 => ?_, fun h1 h2 => ?_⟩
  · simp [get_missing_date_range, resolveTailFastMeta, h, h1]
  · have hn : ¬ end_date ≤ last_date := by omega
    simp [get_missing_date_range, resolveTailFastMeta, h, hn, h2]
  · have hn : ¬ end_date ≤ last_date := by omega
    simp [get_missing_date_range, resolveTailFastMeta, h, hn, h2]

theorem C4_tail_watermark_fastpath_witness :
    get_missing_date_range (fun _ _ => true) (some [sampleValidRec]) "000001"
        1 10 "tail" (some [("000001", 5)])
      = ⟨true, some 6, some 10, false, none⟩ :=
  (C4_tail_watermark_fastpath (fun _ _ => true) [sampleValidRec] "000001"
    1 10 [("000001", 5)] 5 (by decide)).2.2 (by decide) rfl

lemma mem_dateRange (s e d : Nat) : d ∈ dateRange s e ↔ s ≤ d ∧ d ≤ e := by
  simp only [dateRange, List.mem_map, List.mem_range]
  constructor
  · rintro ⟨i, hi, rfl⟩
    omega
  · rintro ⟨h1, h2⟩
    exact ⟨d - s, by omega, by omega⟩

/-- Claim C9: `has_trading_day` returns true on any internal failure (a
parse error caught by the outer except), and without an authoritative
calendar — backend unavailable, or a calendar query that raises — it is true
iff the inclusive range contains at least one Monday-through-Friday day. -/
theorem C9_calendar_defaults :
    (∀ (backend : CalendarBackend) (msg : String),
        has_trading_day backend (.error msg) = true) ∧
    (∀ s e : Nat,
        has_trading_day .unavailable (.ok (s, e)) = true ↔
          ∃ d, s ≤ d ∧ d ≤ e ∧ d % 7 < 5) ∧
    (∀ (q : Nat → Except String Bool) (s e : Nat) (msg : String),
        anySessionExcept q (dateRange s e) = .error msg →
        (has_trading_day (.available q) (.ok (s, e)) = true ↔
          ∃ d, s ≤ d ∧ d ≤ e ∧ d % 7 < 5)) := by
  refine ⟨fun backend msg => rfl, fun s e => ?_, fun q s e msg hq => ?_⟩
  · simp only [has_trading_day, List.any_eq_true, decide_eq_true_eq,
      mem_dateRange]
    constructor
    · rintro ⟨d, ⟨h1, h2⟩, h3⟩
      exact ⟨d, h1, h2, h3⟩
    · rintro ⟨d, h1, h2, h3⟩
      exact ⟨d, ⟨h1, h2⟩, h3⟩
  · simp only [has_trading_day, hq, List.any_eq_true, decide_eq_true_eq,
      mem_dateRange]
    constructor
    · rintro ⟨d, ⟨h1, h2⟩, h3⟩
      exact ⟨d, h1, h2, h3⟩
    · rintro ⟨d, h1, h2, h3⟩
      exact ⟨d, ⟨h1, h2⟩, h3⟩

theorem C9_calendar_defaults_witness :
    has_trading_day .unavailable (.error "parse failure") = true ∧
    has_trading_day .unavailable (.ok (0, 4)) = true := by
  have h := C9_calendar_defaults
  exact ⟨h.1 .unavailable "parse failure",
    (h.2.1 0 4).mpr ⟨0, Nat.le_refl 0, by omega, by omega⟩⟩

lemma msFetchGo_empty_result (nm : String) (stats : List (String × Nat)) :
    ∀ (pre : List (String × ProviderBehavior)) (n : String)
      (df : Option (List DailyRecord)) (rest : List (String × ProviderBehavior))
      (invoked : List String) (failed : List (String × String)),
    (∀ p ∈ pre, ∃ msg, p.2 = ProviderBehavior.raiseErr msg) →
    (df = none ∨ df = some []) →
    (msFetchGo nm (pre ++ (n, .ret df) :: rest) stats invoked failed).result
        = ⟨none, some "no_data"⟩ ∧
    (msFetchGo nm (pre ++ (n, .ret df) :: rest) stats invoked failed).invoked
        = invoked ++ pre.map Prod.fst ++ [n] ∧
    (msFetchGo nm (pre ++ (n, .ret df) :: rest) stats invoked failed).stats
        = stats := by
  intro pre
  induction pre with
  | nil =>
      intro n df rest invoked failed _ hdf
      rcases hdf with rfl | rfl <;> simp [msFetchGo]
  | cons p ps ih =>
      intro n df rest invoked failed hpre hdf
      obtain ⟨msg, hmsg⟩ := hpre p (List.mem_cons_self _ _)
      obtain ⟨pn, pb⟩ := p
      simp only at hmsg
      subst hmsg
      have hpre' : ∀ q ∈ ps, ∃ m, q.2 = ProviderBehavior.raiseErr m :=
        fun q hq => hpre q (List.mem_cons_of_mem _ hq)
      have h := ih n df rest (invoked ++ [pn]) (failed ++ [(pn, msg)]) hpre' hdf
      simp only [List.cons_append, msFetchGo, List.append_eq] at h ⊢
      exact ⟨h.1, by rw [h.2.1]; simp, h.2.2⟩

/-- Claim C2: a provider that is reached (every provider before it raised)
and answers with a `None` or empty frame makes `fetch` return the
authoritative `no_data` result at once: no later provider is invoked —
whatever the later providers would have answered — and no usage counter
changes. -/
theorem C2_authoritative_empty (stock_name : String)
    (stats : List (String × Nat)) (pre : List (String × ProviderBehavior))
    (n : String) (df : Option (List DailyRecord))
    (rest : List (String × ProviderBehavior))
    (hpre : ∀ p ∈ pre, ∃ msg, p.2 = ProviderBehavior.raiseErr msg)
    (hdf : df = none ∨ df = some []) :
    (msFetch stock_name stats (pre ++ (n, .ret df) :: rest)).result
        = ⟨none, some "no_data"⟩ ∧
    (msFetch stock_name stats (pre ++ (n, .ret df) :: rest)).invoked
        = pre.map Prod.fst ++ [n] ∧
    (msFetch stock_name stats (pre ++ (n, .ret df) :: rest)).stats = stats := by
  have h := msFetchGo_empty_result stock_name stats pre n df rest [] [] hpre hdf
  simpa [msFetch] using h

theorem C2_authoritative_empty_witness :
    (msFetch "平安银行" [("P1", 0), ("P2", 0), ("P3", 0)]
        ([("P1", .raiseErr "timeout")] ++ ("P2", .ret (some [])) ::
          [("P3", .ret (some [sampleValidRec]))])).result
      = ⟨none, some "no_data"⟩ ∧
    (msFetch "平安银行" [("P1", 0), ("P2", 0), ("P3", 0)]
        ([("P1", .raiseErr "timeout")] ++ ("P2", .ret (some [])) ::
          [("P3", .ret (some [sampleValidRec]))])).invoked
      = [("P1", ProviderBehavior.raiseErr "timeout")].map Prod.fst ++ ["P2"] ∧
    (msFetch "平安银行" [("P1", 0), ("P2", 0), ("P3", 0)]
        ([("P1", .raiseErr "timeout")] ++ ("P2", .ret (some [])) ::
          [("P3", .ret (some [sampleValidRec]))])).stats
      = [("P1", 0), ("P2", 0), ("P3", 0)] :=
  C2_authoritative_empty "平安银行" [("P1", 0), ("P2", 0), ("P3", 0)]
    [("P1", .raiseErr "timeout")] "P2" (some [])
    [("P3", .ret (some [sampleValidRec]))]
    (fun p hp => by
      rw [List.mem_singleton] at hp
      subst hp
      exact ⟨"timeout", rfl⟩)
    (Or.inr rfl)

lemma msFetchGo_success_after_raises (nm : String) (stats : List (String × Nat)) :
    ∀ (pre : List (String × ProviderBehavior)) (n : String)
      (d : List DailyRecord) (rest : List (String × ProviderBehavior))
      (invoked : List String) (failed : List (String × String)),
    (∀ p ∈ pre, ∃ msg, p.2 = ProviderBehavior.raiseErr msg) → d ≠ [] →
    (msFetchGo nm (pre ++ (n, .ret (some d)) :: rest) stats invoked failed).result
        = ⟨some (withStockName nm d), some n⟩ ∧
    (msFetchGo nm (pre ++ (n, .ret (some d)) :: rest) stats invoked failed).stats
        = bumpStat stats n ∧
    (msFetchGo nm (pre ++ (n, .ret (some d)) :: rest) stats invoked failed).invoked
        = invoked ++ pre.map Prod.fst ++ [n] := by
  intro pre
  induction pre with
  | nil =>
      intro n d rest invoked failed _ hd
      cases d with
      | nil => exact absurd rfl hd
      | cons x xs => simp [msFetchGo]
  | cons p ps ih =>
      intro n d rest invoked failed hpre hd
      obtain ⟨msg, hmsg⟩ := hpre p (List.mem_cons_self _ _)
      obtain ⟨pn, pb⟩ := p
      simp only at hmsg
      subst hmsg
      have hpre' : ∀ q ∈ ps, ∃ m, q.2 = ProviderBehavior.raiseErr m :=
        fun q hq => hpre q (List.mem_cons_of_mem _ hq)
      have h := ih n d rest (invoked ++ [pn]) (failed ++ [(pn, msg)]) hpre' hd
      simp only [List.cons_append, msFetchGo, List.append_eq] at h ⊢
      exact ⟨h.1, h.2.1, by rw [h.2.2]; simp⟩

lemma msFetchGo_all_raise (nm : String) (stats : List (String × Nat)) :
    ∀ (errs : List (String × String)) (invoked : List String)
      (failed : List (String × String)),
    msFetchGo nm (errs.map (fun q => (q.1, ProviderBehavior.raiseErr q.2)))
        stats invoked failed
      = { result := if (failed ++ errs).isEmpty then ⟨none, some "no_data"⟩
            else ⟨none, none⟩,
          stats := stats, invoked := invoked ++ errs.map Prod.fst,
          failed_sources := failed ++ errs } := by
  intro errs
  induction errs with
  | nil =>
      intro invoked failed
      cases failed <;> simp [msFetchGo]
  | cons q qs ih =>
      intro invoked failed
      obtain ⟨qn, qm⟩ := q
      simp only [List.map_cons, msFetchGo]
      rw [ih]
      simp [List.append_assoc]

lemma msFetchGo_stats_spec (nm : String) (stats : List (String × Nat)) :
    ∀ (providers : List (String × ProviderBehavior)) (invoked : List String)
      (failed : List (String × String)),
    ((msFetchGo nm providers stats invoked failed).result.data = none →
      (msFetchGo nm providers stats invoked failed).stats = stats) ∧
    (∀ d, (msFetchGo nm providers stats invoked failed).result.data = some d →
      ∃ src, (msFetchGo nm providers stats invoked failed).result.source
          = some src ∧
        (msFetchGo nm providers stats invoked failed).stats
          = bumpStat stats src) := by
  intro providers
  induction providers with
  | nil =>
      intro invoked failed
      constructor
      · intro
        simp only [msFetchGo]
        split <;> rfl
      · intro d hd
        simp only [msFetchGo] at hd
        split at hd <;> simp at hd
  | cons p ps ih =>
      intro invoked failed
      obtain ⟨pn, pb⟩ := p
      cases pb with
      | raiseErr msg =>
          simpa only [msFetchGo] using ih _ _
      | ret df =>
          cases df with
          | none => simp [msFetchGo]
          | some d =>
              by_cases hd : d.isEmpty <;> simp [msFetchGo, hd]

lemma statOf_cons (p : String × Nat) (ps : List (String × Nat)) (n : String) :
    statOf (p :: ps) n = if p.1 = n then p.2 else statOf ps n := by
  by_cases hp : p.1 = n <;> simp [statOf, hp]

lemma bumpStat_cons (p : String × Nat) (ps : List (String × Nat)) (n : String) :
    bumpStat (p :: ps) n
      = (if p.1 = n then (p.1, p.2 + 1) else p) :: bumpStat ps n := rfl

lemma statOf_bumpStat_self (stats : List (String × Nat)) (n : String)
    (h : (List.find? (fun p => p.1 = n) stats).isSome) :
    statOf (bumpStat stats n) n = statOf stats n + 1 := by
  induction stats with
  | nil => simp [List.find?] at h
  | cons p ps ih =>
      rw [bumpStat_cons]
      by_cases hp : p.1 = n
      · simp [statOf_cons, hp]
      · have h' : (List.find? (fun q => q.1 = n) ps).isSome := by
          rw [List.find?_cons_of_neg ps (by simpa using hp)] at h
          exact h
        simp [statOf_cons, hp, ih h']

lemma statOf_bumpStat_ne (stats : List (String × Nat)) (n n' : String)
    (h : n' ≠ n) : statOf (bumpStat stats n) n' = statOf stats n' := by
  induction stats with
  | nil => rfl
  | cons p ps ih =>
      rw [bumpStat_cons]
      by_cases hq : p.1 = n
      · have hpn : ¬ p.1 = n' := fun hp => h (hp.symm.trans hq)
        simp [statOf_cons, hq, hpn, ih, Ne.symm h]
      · simp [statOf_cons, hq, ih]

/-- Claim C3: a raising provider is skipped and the next one in order is
tried — a later non-empty answer is returned as that provider's success and
bumps exactly its counter; when every provider raises the result is the
failure value with the per-provider error summaries in try order; and a
usage counter grows exactly when that provider's non-empty result is the
returned success (a raising provider is never counted). -/
theorem C3_failover_and_counters (stock_name : String)
    (stats : List (String × Nat)) :
    (∀ (pre : List (String × ProviderBehavior)) (n : String)
        (d : List DailyRecord) (rest : List (String × ProviderBehavior)),
      (∀ p ∈ pre, ∃ msg, p.2 = ProviderBehavior.raiseErr msg) → d ≠ [] →
      (msFetch stock_name stats (pre ++ (n, .ret (some d)) :: rest)).result
          = ⟨some (withStockName stock_name d), some n⟩ ∧
      (msFetch stock_name stats (pre ++ (n, .ret (some d)) :: rest)).stats
          = bumpStat stats n ∧
      (msFetch stock_name stats (pre ++ (n, .ret (some d)) :: rest)).invoked
          = pre.map Prod.fst ++ [n]) ∧
    (∀ errs : List (String × String), errs ≠ [] →
      (msFetch stock_name stats
          (errs.map (fun q => (q.1, ProviderBehavior.raiseErr q.2)))).result
        = ⟨none, none⟩ ∧
      (msFetch stock_name stats
          (errs.map (fun q => (q.1, ProviderBehavior.raiseErr q.2)))).failed_sources
        = errs) ∧
    (∀ (providers : List (String × ProviderBehavior)) (n : String),
      (List.find? (fun p => p.1 = n) stats).isSome →
      statOf (msFetch stock_name stats providers).stats n
        = statOf stats n +
          (if (msFetch stock_name stats providers).result.data ≠ none ∧
              (msFetch stock_name stats providers).result.source = some n
           then 1 else 0)) := by
  refine ⟨fun pre n d rest hpre hd => ?_, fun errs herrs => ?_,
    fun providers n hkey => ?_⟩
  · have h := msFetchGo_success_after_raises stock_name stats pre n d rest
      [] [] hpre hd
    simpa [msFetch] using h
  · have h := msFetchGo_all_raise stock_name stats errs [] []
    rw [msFetch, h]
    simp [List.isEmpty_iff, herrs]
  · have h := msFetchGo_stats_spec stock_name stats providers [] []
    rcases hdata : (msFetch stock_name stats providers).result.data with _ | d
    · rw [msFetch] at hdata ⊢
      rw [h.1 hdata]
      simp [hdata]
    · rw [msFetch] at hdata ⊢
      obtain ⟨src, hsrc, hstats⟩ := h.2 d hdata
      rw [hstats]
      by_cases hn : n = src
      · subst hn
        rw [statOf_bumpStat_self stats n hkey]
        simp [hdata, hsrc]
      · rw [statOf_bumpStat_ne stats src n hn]
        simp [hdata, hsrc, Ne.symm hn]

theorem C3_failover_and_counters_witness :
    ((msFetch "平安银行" [("P1", 0), ("P2", 0)]
        ([("P1", .raiseErr "conn reset")] ++
          ("P2", .ret (some sampleBatch3)) :: [])).result
      = ⟨some (withStockName "平安银行" sampleBatch3), some "P2"⟩ ∧
    (msFetch "平安银行" [("P1", 0), ("P2", 0)]
        ([("P1", .raiseErr "conn reset")] ++
          ("P2", .ret (some sampleBatch3)) :: [])).stats
      = bumpStat [("P1", 0), ("P2", 0)] "P2" ∧
    (msFetch "平安银行" [("P1", 0), ("P2", 0)]
        ([("P1", .raiseErr "conn reset")] ++
          ("P2", .ret (some sampleBatch3)) :: [])).invoked
      = [("P1", ProviderBehavior.raiseErr "conn reset")].map Prod.fst ++ ["P2"]) ∧
    ((msFetch "平安银行" [("P1", 0), ("P2", 0)]
        ([("P1", "e1"), ("P2", "e2")].map
          (fun q => (q.1, ProviderBehavior.raiseErr q.2)))).result
      = ⟨none, none⟩ ∧
    (msFetch "平安银行" [("P1", 0), ("P2", 0)]
        ([("P1", "e1"), ("P2", "e2")].map
          (fun q => (q.1, ProviderBehavior.raiseErr q.2)))).failed_sources
      = [("P1", "e1"), ("P2", "e2")]) ∧
    statOf (msFetch "平安银行" [("P1", 0), ("P2", 0)]
        ([("P1", .raiseErr "conn reset")] ++
          ("P2", .ret (some sampleBatch3)) :: [])).stats "P1"
      = statOf [("P1", 0), ("P2", 0)] "P1" +
          (if (msFetch "平安银行" [("P1", 0), ("P2", 0)]
                ([("P1", .raiseErr "conn reset")] ++
                  ("P2", .ret (some sampleBatch3)) :: [])).result.data ≠ none ∧
              (msFetch "平安银行" [("P1", 0), ("P2", 0)]
                ([("P1", .raiseErr "conn reset")] ++
                  ("P2", .ret (some sampleBatch3)) :: [])).result.source
                = some "P1"
           then 1 else 0) := by
  have h := C3_failover_and_counters "平安银行" [("P1", 0), ("P2", 0)]
  refine ⟨h.1 [("P1", .raiseErr "conn reset")] "P2" sampleBatch3 []
      (fun p hp => by
        rw [List.mem_singleton] at hp
        subst hp
        exact ⟨"conn reset", rfl⟩)
      (by decide),
    h.2.1 [("P1", "e1"), ("P2", "e2")] (by decide),
    h.2.2 ([("P1", .raiseErr "conn reset")] ++
      ("P2", .ret (some sampleBatch3)) :: []) "P1" (by decide)⟩

/-- Claim C10: a `None` from a provider that did not raise is classified as
authoritative `no_data` and cuts off failover; the yfinance fetcher turns
every exception into `None` and the baostock fetcher returns `None` when its
login fails, so a transport or auth failure at the first-tried provider
yields the `no_data` result and no later provider is consulted. -/
theorem C10_none_masks_errors :
    (∀ (stock_code e : String), yfinanceFetch stock_code (.error e) = none) ∧
    (∀ (stock_code : String) (rows : List BsRow),
        baostockFetch false false stock_code rows = none) ∧
    (∀ (nm : String) (stats : List (String × Nat)) (n stock_code e : String)
        (rest : List (String × ProviderBehavior)),
      (msFetch nm stats
          ((n, .ret (yfinanceFetch stock_code (.error e))) :: rest)).result
        = ⟨none, some "no_data"⟩ ∧
      (msFetch nm stats
          ((n, .ret (yfinanceFetch stock_code (.error e))) :: rest)).invoked
        = [n] ∧
      (msFetch nm stats
          ((n, .ret (yfinanceFetch stock_code (.error e))) :: rest)).stats
        = stats) ∧
    (∀ (nm : String) (stats : List (String × Nat)) (n stock_code : String)
        (rows : List BsRow) (rest : List (String × ProviderBehavior)),
      (msFetch nm stats
          ((n, .ret (baostockFetch false false stock_code rows)) :: rest)).result
        = ⟨none, some "no_data"⟩ ∧
      (msFetch nm stats
          ((n, .ret (baostockFetch false false stock_code rows)) :: rest)).invoked
        = [n] ∧
      (msFetch nm stats
          ((n, .ret (baostockFetch false false stock_code rows)) :: rest)).stats
        = stats) := by
  refine ⟨fun stock_code e => rfl, fun stock_code rows => rfl,
    fun nm stats n stock_code e rest => ?_, fun nm stats n stock_code rows rest => ?_⟩
  · have h := msFetchGo_empty_result nm stats [] n
      (yfinanceFetch stock_code (.error e)) rest [] []
      (fun p hp => absurd hp (List.not_mem_nil p)) (Or.inl rfl)
    simpa [msFetch] using h
  · have h := msFetchGo_empty_result nm stats [] n
      (baostockFetch false false stock_code rows) rest [] []
      (fun p hp => absurd hp (List.not_mem_nil p)) (Or.inl rfl)
    simpa [msFetch] using h

lemma mem_of_mem_dedupGo :
    ∀ (seen : List Nat) (l : List DailyRecord) (r : DailyRecord),
      r ∈ dedupGo seen l → r ∈ l := by
  intro seen l
  induction l generalizing seen with
  | nil =>
      intro r h
      simp [dedupGo] at h
  | cons x rest ih =>
      intro r h
      by_cases hx : x.date ∈ seen
      · simp only [dedupGo, if_pos hx] at h
        exact List.mem_cons_of_mem _ (ih _ r h)
      · simp only [dedupGo, if_neg hx] at h
        rcases List.mem_cons.mp h with rfl | h2
        · exact List.mem_cons_self _ _
        · exact List.mem_cons_of_mem _ (ih _ r h2)

lemma date_not_seen_of_mem_dedupGo :
    ∀ (seen : List Nat) (l : List DailyRecord) (r : DailyRecord),
      r ∈ dedupGo seen l → r.date ∉ seen := by
  intro seen l
  induction l generalizing seen with
  | nil =>
      intro r h
      simp [dedupGo] at h
  | cons x rest ih =>
      intro r h
      by_cases hx : x.date ∈ seen
      · simp only [dedupGo, if_pos hx] at h
        exact ih _ r h
      · simp only [dedupGo, if_neg hx] at h
        rcases List.mem_cons.mp h with rfl | h2
        · exact hx
        · exact fun hmem =>
            ih _ r h2 (List.mem_cons_of_mem _ hmem)

lemma countP_dedupGo (d : Nat) :
    ∀ (seen : List Nat) (l : List DailyRecord),
      (dedupGo seen l).countP (fun r => decide (r.date = d))
        = if d ∈ seen then 0
          else if l.any (fun r => decide (r.date = d)) then 1 else 0 := by
  intro seen l
  induction l generalizing seen with
  | nil => simp [dedupGo]
  | cons x rest ih =>
      by_cases hx : x.date ∈ seen
      · rw [dedupGo, if_pos hx, ih seen]
        by_cases hd : d ∈ seen
        · simp [hd]
        · have hxd : ¬ x.date = d := fun hc => hd (hc ▸ hx)
          simp [hd, List.any_cons, hxd]
      · rw [dedupGo, if_neg hx, List.countP_cons, ih (x.date :: seen)]
        by_cases hxd : x.date = d
        · subst hxd
          simp [hx, List.any_cons]
        · have hdx : ¬ d = x.date := fun hc => hxd hc.symm
          by_cases hd : d ∈ seen
          · simp [List.mem_cons, hd, hxd, hdx]
          · simp [List.mem_cons, hd, hxd, hdx, List.any_cons]

lemma find?_dedupGo_pins (d : Nat) :
    ∀ (seen : List Nat) (l : List DailyRecord) (r : DailyRecord),
      d ∉ seen → r ∈ dedupGo seen l → r.date = d →
      l.find? (fun s => decide (s.date = d)) = some r := by
  intro seen l
  induction l generalizing seen with
  | nil =>
      intro r _ h
      simp [dedupGo] at h
  | cons x rest ih =>
      intro r hd hmem hrd
      by_cases hx : x.date ∈ seen
      · simp only [dedupGo, if_pos hx] at hmem
        have hxd : ¬ x.date = d := fun hc => hd (hc ▸ hx)
        rw [List.find?_cons_of_neg _ (by simpa using hxd)]
        exact ih seen r hd hmem hrd
      · simp only [dedupGo, if_neg hx] at hmem
        rcases List.mem_cons.mp hmem with rfl | hmem2
        · rw [List.find?_cons_of_pos _ (by simpa using hrd)]
        · have hnotseen : r.date ∉ (x.date :: seen) :=
            date_not_seen_of_mem_dedupGo _ _ _ hmem2
          have hxd : ¬ x.date = d := by
            intro hc
            exact hnotseen (by rw [hrd, hc]; exact List.mem_cons_self _ _)
          rw [List.find?_cons_of_neg _ (by simpa using hxd)]
          refine ih (x.date :: seen) r ?_ hmem2 hrd
          intro hc
          rcases List.mem_cons.mp hc with hc1 | hc2
          · exact hxd hc1.symm
          · exact hd hc2

/-- Claim C1 counterexample: merging a new record whose date already exists
in the persisted series keeps the EXISTING record, not the new one —
`drop_duplicates` defaults to `keep='first'` and the existing rows precede
the new batch in the concatenation, so the claimed last-write-wins fails. -/
theorem C1_counterexample_existing_record_kept :
    (merge_and_save_data [mergeNewRec] (some [mergeOldRec]) "000001" false
        (some []) (some 6)).file = some [mergeOldRec] ∧
    mergeOldRec ≠ mergeNewRec := by decide

/-- Claim C1 (amended): for a merge onto an existing series with
`full_refresh = false`, when a date occurs both in the (self-filtered)
existing series and in the new filtered batch, the persisted result holds
exactly one record for that date and it is the FIRST record with that date
from the existing filtered series (first write wins), and the result is
sorted ascending by date. -/
theorem C1_merge_dedup_first_wins (df_new existing : List DailyRecord)
    (stock_code : String) (meta : Option Metadata)
    (fetch_end_date : Option Nat) (d : Nat)
    (hex : d ∈ (filter_suspended_trading_data existing).1.map
      (fun r => r.date))
    (hnew : d ∈ (filter_suspended_trading_data df_new).1.map
      (fun r => r.date)) :
    ((merge_and_save_data df_new (some existing) stock_code false meta
        fetch_end_date).file.getD []).countP (fun r => decide (r.date = d))
      = 1 ∧
    (∀ r ∈ (merge_and_save_data df_new (some existing) stock_code false meta
        fetch_end_date).file.getD [], r.date = d →
      (filter_suspended_trading_data existing).1.find?
          (fun s => decide (s.date = d)) = some r) ∧
    List.Sorted (fun a b => a.date ≤ b.date)
      ((merge_and_save_data df_new (some existing) stock_code false meta
        fetch_end_date).file.getD []) ∧
    (merge_and_save_data df_new (some existing) stock_code false meta
        fetch_end_date).file.isSome := by
  obtain ⟨rnew, hnewmem, hnewd⟩ := List.mem_map.mp hnew
  obtain ⟨rex, hexmem, hexd⟩ := List.mem_map.mp hex
  have hne : (filter_suspended_trading_data df_new).1.isEmpty = false := by
    cases h : (filter_suspended_trading_data df_new).1 with
    | nil =>
        rw [h] at hnewmem
        simp at hnewmem
    | cons a l => rfl
  have hfile : (merge_and_save_data df_new (some existing) stock_code false
      meta fetch_end_date).file
      = some (sortByDate (dedupByDateKeepFirst
          ((filter_suspended_trading_data existing).1
            ++ (filter_suspended_trading_data df_new).1))) := by
    simp [merge_and_save_data, hne]
  have hperm := List.perm_insertionSort (fun a b : DailyRecord => a.date ≤ b.date)
    (dedupGo [] ((filter_suspended_trading_data existing).1
      ++ (filter_suspended_trading_data df_new).1))
  refine ⟨?_, ?_, ?_, ?_⟩
  · rw [hfile, Option.getD_some, sortByDate, dedupByDateKeepFirst,
      hperm.countP_eq, countP_dedupGo]
    have hany : ((filter_suspended_trading_data existing).1
        ++ (filter_suspended_trading_data df_new).1).any
        (fun r => decide (r.date = d)) = true :=
      List.any_eq_true.mpr
        ⟨rex, List.mem_append_left _ hexmem, by simpa using hexd⟩
    simp [hany]
  · intro r hr hrd
    rw [hfile, Option.getD_some, sortByDate, dedupByDateKeepFirst] at hr
    have hrdedup := hperm.mem_iff.mp hr
    have hfind := find?_dedupGo_pins d [] _ r (by simp) hrdedup hrd
    rw [List.find?_append] at hfind
    have hexSome : ((filter_suspended_trading_data existing).1.find?
        (fun s => decide (s.date = d))).isSome :=
      List.find?_isSome.mpr ⟨rex, hexmem, by simpa using hexd⟩
    obtain ⟨x0, hx0⟩ := Option.isSome_iff_exists.mp hexSome
    rw [hx0] at hfind
    simp only [Option.or_some] at hfind
    rw [hx0]
    exact hfind
  · rw [hfile, Option.getD_some, sortByDate]
    exact List.sorted_insertionSort _ _
  · rw [hfile]
    rfl

theorem C1_merge_dedup_first_wins_witness :
    ((merge_and_save_data [mergeNewRec] (some [mergeOldRec]) "000001" false
        (some []) (some 6)).file.getD []).countP
        (fun r => decide (r.date = 5)) = 1 ∧
    (∀ r ∈ (merge_and_save_data [mergeNewRec] (some [mergeOldRec]) "000001"
        false (some []) (some 6)).file.getD [], r.date = 5 →
      (filter_suspended_trading_data [mergeOldRec]).1.find?
          (fun s => decide (s.date = 5)) = some r) ∧
    List.Sorted (fun a b => a.date ≤ b.date)
      ((merge_and_save_data [mergeNewRec] (some [mergeOldRec]) "000001" false
        (some []) (some 6)).file.getD []) ∧
    (merge_and_save_data [mergeNewRec] (some [mergeOldRec]) "000001" false
        (some []) (some 6)).file.isSome :=
  C1_merge_dedup_first_wins [mergeNewRec] [mergeOldRec] "000001" (some [])
    (some 6) 5 (by decide) (by decide)

lemma resolveTailFastMeta_missing_none (cal : Nat → Nat → Bool)
    (stock_code : String) (end_date : Nat) (m : Metadata) (r : ResolveResult)
    (h : resolveTailFastMeta cal stock_code end_date m = some r) :
    r.missing_dates = none := by
  unfold resolveTailFastMeta at h
  rcases hm : Metadata.get_last_date m stock_code with _ | last <;> rw [hm] at h
  · exact absurd h (by simp)
  · dsimp only at h
    split_ifs at h <;> (rw [Option.some_inj] at h; rw [← h])

lemma resolveTailFastFile_missing_none (cal : Nat → Nat → Bool)
    (existing_df : List DailyRecord) (start_date end_date : Nat) :
    (resolveTailFastFile cal existing_df start_date end_date).missing_dates
      = none := by
  unfold resolveTailFastFile
  rcases existing_df.getLast? with _ | lastRow
  · rfl
  · dsimp only
    split_ifs <;> rfl

lemma resolveBranches_shape (update_mode : String)
    (start_date end_date existing_start existing_end : Nat)
    (has_head has_tail has_middle : Bool) (missing_formatted : List Nat) :
    resolveBranches update_mode start_date end_date existing_start
        existing_end has_head has_tail has_middle missing_formatted
      = ⟨false, none, none, false, none⟩ ∨
    ((resolveBranches update_mode start_date end_date existing_start
        existing_end has_head has_tail has_middle
        missing_formatted).need_update = true ∧
      (resolveBranches update_mode start_date end_date existing_start
        existing_end has_head has_tail has_middle
        missing_formatted).missing_dates = some missing_formatted) := by
  simp only [resolveBranches]
  repeat' split
  all_goals
    try first
      | exact Or.inl rfl
      | exact Or.inr ⟨rfl, rfl⟩
  all_goals
    (rename_i r heq
     repeat' split at heq
     all_goals
       first
         | (simp only [Option.some.injEq] at heq
            subst heq
            first
              | exact Or.inl rfl
              | exact Or.inr ⟨rfl, rfl⟩)
         | simp at heq)

lemma resolveFullPath_shape (cal : Nat → Nat → Bool)
    (existing_df : List DailyRecord) (start_date end_date : Nat)
    (update_mode : String) :
    resolveFullPath cal existing_df start_date end_date update_mode
        = ⟨false, none, none, false, none⟩ ∨
    (existing_df.isEmpty = true ∧
      resolveFullPath cal existing_df start_date end_date update_mode
        = ⟨true, some start_date, some end_date, false, none⟩) ∨
    ((resolveFullPath cal existing_df start_date end_date
        update_mode).need_update = true ∧
      (resolveFullPath cal existing_df start_date end_date
          update_mode).missing_dates
        = some (List.insertionSort (fun a b => a ≤ b)
            (spec_missing_trading_dates cal existing_df start_date
              end_date))) := by
  unfold resolveFullPath
  split
  · exact Or.inr (Or.inl ⟨by assumption, rfl⟩)
  · dsimp only
    split
    · exact Or.inl rfl
    · split
      · exact Or.inl rfl
      · rcases resolveBranches_shape update_mode start_date end_date
            (minBatchDate existing_df) (maxBatchDate existing_df) _ _ _ _
          with h | ⟨h1, h2⟩
        · exact Or.inl h
        · refine Or.inr (Or.inr ⟨h1, ?_⟩)
          rw [h2]
          simp only [spec_missing_trading_dates]

lemma resolveFullPath_no_update (cal : Nat → Nat → Bool)
    (existing_df : List DailyRecord) (start_date end_date : Nat)
    (update_mode : String)
    (h : (resolveFullPath cal existing_df start_date end_date
      update_mode).need_update = false) :
    resolveFullPath cal existing_df start_date end_date update_mode
      = ⟨false, none, none, false, none⟩ := by
  rcases resolveFullPath_shape cal existing_df start_date end_date update_mode
    with h1 | ⟨_, h2⟩ | ⟨h3, _⟩
  · exact h1
  · rw [h2] at h
    exact absurd h (by simp)
  · rw [h3] at h
    exact absurd h (by simp)

lemma resolveFullPath_update_missing (cal : Nat → Nat → Bool)
    (existing_df : List DailyRecord) (start_date end_date : Nat)
    (update_mode : String) (hdf : existing_df ≠ [])
    (h : (resolveFullPath cal existing_df start_date end_date
      update_mode).need_update = true) :
    (resolveFullPath cal existing_df start_date end_date
        update_mode).missing_dates
      = some (List.insertionSort (fun a b => a ≤ b)
          (spec_missing_trading_dates cal existing_df start_date
            end_date)) := by
  rcases resolveFullPath_shape cal existing_df start_date end_date update_mode
    with h1 | ⟨h2, _⟩ | ⟨_, h3⟩
  · rw [h1] at h
    exact absurd h (by simp)
  · exact absurd (List.isEmpty_iff.mp h2) hdf
  · exact h3

/-- Claim C8 counterexample: on the Tail fast path the resolver returns
`None` as the fifth component even though the requested window does have
missing trading dates, so the formatted missing-date list is NOT returned in
all cases. -/
theorem C8_counterexample_fastpath_returns_none :
    (get_missing_date_range (fun _ _ => true)
        (some [mkRec 8 "A" (some 1) (some 1)]) "000001" 1 12 "tail"
        (some [("000001", 8)])).missing_dates = none ∧
    spec_missing_trading_dates (fun _ _ => true)
        [mkRec 8 "A" (some 1) (some 1)] 1 12 ≠ [] := by decide

/-- Claim C8 (amended): the fifth component is `None` whenever no update is
needed and on both Tail fast paths — the watermark fast path and the
last-row file fast path, with or without a watermark entry, whether or not
an update is triggered (in this embedding, which does not model series read
errors, that is every tail-mode resolve); the formatted missing-trading-date
list is returned exactly by the full-analysis-path branches that trigger an
update (e.g. every updating `full`-mode resolve on a non-empty series). -/
theorem C8_missing_list_only_on_full_path :
    (∀ (cal : Nat → Nat → Bool) (existing : Option (List DailyRecord))
        (stock_code : String) (start_date end_date : Nat)
        (update_mode : String) (mm : Option Metadata),
      (get_missing_date_range cal existing stock_code start_date end_date
          update_mode mm).need_update = false →
      (get_missing_date_range cal existing stock_code start_date end_date
          update_mode mm).missing_dates = none) ∧
    (∀ (cal : Nat → Nat → Bool) (existing : Option (List DailyRecord))
        (stock_code : String) (start_date end_date : Nat)
        (mm : Option Metadata),
      (get_missing_date_range cal existing stock_code start_date end_date
          "tail" mm).missing_dates = none) ∧
    (∀ (cal : Nat → Nat → Bool) (existing_df : List DailyRecord)
        (stock_code : String) (start_date end_date : Nat)
        (mm : Option Metadata),
      existing_df ≠ [] →
      (get_missing_date_range cal (some existing_df) stock_code start_date
          end_date "full" mm).need_update = true →
      (get_missing_date_range cal (some existing_df) stock_code start_date
          end_date "full" mm).missing_dates
        = some (List.insertionSort (fun a b => a ≤ b)
            (spec_missing_trading_dates cal existing_df start_date
              end_date))) := by
  refine ⟨fun cal existing stock_code start_date end_date update_mode mm h => ?_,
    fun cal existing stock_code start_date end_date mm => ?_,
    fun cal existing_df stock_code start_date end_date mm hne h => ?_⟩
  · cases existing with
    | none => simp [get_missing_date_range] at h
    | some existing_df =>
        simp only [get_missing_date_range] at h ⊢
        rcases hfm : (if update_mode = "tail" then
            match mm with
            | some m => resolveTailFastMeta cal stock_code end_date m
            | none => none
          else none) with _ | r
        · rw [hfm] at h ⊢
          by_cases hmode : update_mode = "tail"
          · simp only [hmode, if_pos rfl] at h ⊢
            exact resolveTailFastFile_missing_none cal existing_df
              start_date end_date
          · simp only [if_neg hmode] at h ⊢
            rw [resolveFullPath_no_update cal existing_df start_date
              end_date update_mode h]
        · rw [hfm] at h ⊢
          split at hfm
          · split at hfm
            · exact resolveTailFastMeta_missing_none _ _ _ _ _ hfm
            · exact absurd hfm (by simp)
          · exact absurd hfm (by simp)
  · cases existing with
    | none => rfl
    | some existing_df =>
        cases mm with
        | none =>
            simp only [get_missing_date_range, if_pos rfl]
            exact resolveTailFastFile_missing_none cal existing_df
              start_date end_date
        | some m =>
            rcases hr : resolveTailFastMeta cal stock_code end_date m
              with _ | r
            · simp only [get_missing_date_range, if_pos rfl, hr]
              exact resolveTailFastFile_missing_none cal existing_df
                start_date end_date
            · have hnone := resolveTailFastMeta_missing_none _ _ _ _ _ hr
              simp only [get_missing_date_range, if_pos rfl, hr]
              exact hnone
  · have hred : get_missing_date_range cal (some existing_df) stock_code
        start_date end_date "full" mm
        = resolveFullPath cal existing_df start_date end_date "full" := by
      simp [get_missing_date_range]
    rw [hred] at h ⊢
    exact resolveFullPath_update_missing _ _ _ _ _ hne h

theorem C8_missing_list_only_on_full_path_witness :
    (get_missing_date_range (fun _ _ => false)
        (some [mkRec 8 "A" (some 1) (some 1)]) "000001" 1 12 "tail"
        none).missing_dates = none ∧
    (get_missing_date_range (fun _ _ => true)
        (some [mkRec 8 "A" (some 1) (some 1)]) "000001" 1 12 "tail"
        none).missing_dates = none ∧
    (get_missing_date_range (fun _ _ => true)
        (some [mkRec 8 "A" (some 1) (some 1)]) "000001" 1 12 "tail"
        (some [("000001", 8)])).missing_dates = none ∧
    (get_missing_date_range (fun _ _ => true)
        (some [mkRec 8 "A" (some 1) (some 1)]) "000001" 1 12 "full"
        none).missing_dates
      = some (List.insertionSort (fun a b => a ≤ b)
          (spec_missing_trading_dates (fun _ _ => true)
            [mkRec 8 "A" (some 1) (some 1)] 1 12)) := by
  have h := C8_missing_list_only_on_full_path
  exact ⟨h.1 _ _ _ _ _ _ _ (by decide),
    h.2.1 (fun _ _ => true) (some [mkRec 8 "A" (some 1) (some 1)]) "000001"
      1 12 none,
    h.2.1 (fun _ _ => true) (some [mkRec 8 "A" (some 1) (some 1)]) "000001"
      1 12 (some [("000001", 8)]),
    h.2.2 _ _ _ _ _ _ (by decide) (by decide)⟩

lemma merge_meta_eq (df_new : List DailyRecord)
    (file : Option (List DailyRecord)) (stock_code : String)
    (need_full_refresh : Bool) (m : Metadata) (e : Nat) :
    (merge_and_save_data df_new file stock_code need_full_refresh
        (some m) (some e)).meta = some (m.update_last_date stock_code e) := by
  unfold merge_and_save_data
  dsimp only
  split
  · rfl
  · split <;> rfl

/-- Claim C5 counterexample: after a successful tail run the watermark is
10, but a following successful `head_tail` run that fills the head gap
passes `fetch_end = series_start - 1 = 7` to the merge, which lowers the
stored watermark from 10 to 7 — `get(code)` decreases across successive
successful runs. -/
theorem C5_counterexample_watermark_decreases :
    (runStockStep (fun _ _ => true) wmProviders1 [] "000001" "A" 1 10 "tail"
        wmState0).meta.get_last_date "000001" = some 10 ∧
    (runStockStep (fun _ _ => true) wmProviders2 [] "000001" "A" 1 9
        "head_tail"
        (runStockStep (fun _ _ => true) wmProviders1 [] "000001" "A" 1 10
          "tail" wmState0)).meta.get_last_date "000001" = some 7 ∧
    7 < 10 := by decide

/-- Claim C5 (amended): in tail mode, for an instrument whose persisted
series exists and whose watermark is present, one resolver-then-merge step
never lowers the watermark: it either leaves it unchanged (no update, no
trading day, or provider failure) or raises it to the requested end date
(merge success or authoritative no-data). -/
theorem C5_watermark_monotone_tail (cal : Nat → Nat → Bool)
    (providers : List (String × ProviderBehavior))
    (stats : List (String × Nat)) (stock_code stock_name : String)
    (start_date end_date : Nat) (st : StockState)
    (existing_df : List DailyRecord) (w : Nat)
    (hfile : st.file = some existing_df)
    (hw : st.meta.get_last_date stock_code = some w) :
    ∃ w', (runStockStep cal providers stats stock_code stock_name start_date
        end_date "tail" st).meta.get_last_date stock_code = some w' ∧
      w ≤ w' := by
  by_cases h1 : end_date ≤ w
  · have hR : get_missing_date_range cal st.file stock_code start_date
        end_date "tail" (some st.meta) = ⟨false, none, none, false, none⟩ := by
      rw [hfile]
      simp [get_missing_date_range, resolveTailFastMeta, hw, h1]
    simp only [runStockStep, hR]
    exact ⟨w, hw, Nat.le_refl w⟩
  · have hlt : w < end_date := by omega
    rcases hcal : cal (w + 1) end_date with _ | _
    · have hR : get_missing_date_range cal st.file stock_code start_date
          end_date "tail" (some st.meta)
          = ⟨false, none, none, false, none⟩ := by
        rw [hfile]
        simp [get_missing_date_range, resolveTailFastMeta, hw, h1, hcal]
      simp only [runStockStep, hR]
      exact ⟨w, hw, Nat.le_refl w⟩
    · have hR : get_missing_date_range cal st.file stock_code start_date
          end_date "tail" (some st.meta)
          = ⟨true, some (w + 1), some end_date, false, none⟩ := by
        rw [hfile]
        simp [get_missing_date_range, resolveTailFastMeta, hw, h1, hcal]
      simp only [runStockStep, hR, Option.getD_some]
      simp only [hcal]
      rcases hfd : (msFetch stock_name stats providers).result.data with _ | dfn
      · simp only [hfd]
        by_cases hsrc : (msFetch stock_name stats providers).result.source
            = some "no_data"
        · simp only [hsrc, if_pos rfl]
          refine ⟨end_date, ?_, Nat.le_of_lt hlt⟩
          simp [get_last_date_update]
        · simp only [if_neg hsrc]
          exact ⟨w, hw, Nat.le_refl w⟩
      · simp only [hfd, merge_meta_eq, Option.getD_some]
        refine ⟨end_date, ?_, Nat.le_of_lt hlt⟩
        simp [get_last_date_update]

theorem C5_watermark_monotone_tail_witness :
    ∃ w', (runStockStep (fun _ _ => true) wmProviders1 [] "000001" "A" 1 10
        "tail"
        { file := some wmSeries0, meta := [("000001", 9)] }).meta.get_last_date
        "000001" = some w' ∧ 9 ≤ w' :=
  C5_watermark_monotone_tail (fun _ _ => true) wmProviders1 [] "000001" "A"
    1 10 { file := some wmSeries0, meta := [("000001", 9)] } wmSeries0 9
    rfl (by decide)
